import Mathlib

/-!
# Verification of the wfview/rtl-sdr bidirectional frequency sync engine

Shallow embedding of `src/sync.py` (the synchronization engine): the change
tracker (`Tracker`), the per-tick decision logic of `main`'s polling loop
(`pollTick`, `pollStep`), the tolerant reply parser (`parse_freq_from_text`),
the set-acknowledgment check (`rigctl_set_freq`'s `ok` expression), and the
byte-receive decode (`recv_text`).

Modelling conventions:
- Frequencies are `Int` (Python ints are unbounded).
- Clock instants (`time.time()` results) are `ℚ`; the code only assigns them,
  compares them with `>=`, and tests them against the `0.0` "never" marker,
  so any linearly ordered field-like carrier is faithful; real runs have
  strictly positive instants.
- Python decimal (`float(...)`) parsing is modelled exactly over `ℚ`; the
  rounding of `round` is Python's round-half-to-even.
- Bytes are `Nat` values `< 256`; `bytes.decode(errors="ignore")` is modelled
  by a UTF-8 decoder that skips each maximal ill-formed subpart, which is
  CPython's behaviour for the `ignore` error handler.
- Exceptions in the polling loop body are modelled as an explicit event input
  to the step function (`TickEvent`), mirroring the `except` clause structure
  of `main` (lines 212-223 of `src/sync.py`).
-/

namespace SdrSync

/-- The two sides of the sync: `wf` is the primary (wfview) endpoint and
`sdr` the secondary (rigctl/rtl-sdr) endpoint; these are the `"wf"` and
`"sdr"` dictionary keys of the Python `Tracker`. -/
inductive Side where
  | wf : Side
  | sdr : Side
deriving DecidableEq, Repr

/-- State of the Python `Tracker` class: per-side last observed frequency
(`self.last`, initially `None`) and per-side last-change instant
(`self.last_change_time`, initially `0.0` meaning "never changed"). -/
structure Tracker where
  th : Int
  last_wf : Option Int
  last_sdr : Option Int
  lct_wf : ℚ
  lct_sdr : ℚ
deriving DecidableEq, Repr

/-- `Tracker.__init__(threshold_hz)`. -/
def Tracker.init (threshold_hz : Int) : Tracker :=
  { th := threshold_hz, last_wf := none, last_sdr := none, lct_wf := 0, lct_sdr := 0 }

/-- `self.last[side]`. -/
def Tracker.lastVal (tr : Tracker) : Side → Option Int
  | Side.wf => tr.last_wf
  | Side.sdr => tr.last_sdr

/-- `self.last_change_time[side]`. -/
def Tracker.lct (tr : Tracker) : Side → ℚ
  | Side.wf => tr.lct_wf
  | Side.sdr => tr.lct_sdr

/-- `self.last_change_time[side] = now`. -/
def Tracker.setLct (tr : Tracker) (side : Side) (now : ℚ) : Tracker :=
  match side with
  | Side.wf => { tr with lct_wf := now }
  | Side.sdr => { tr with lct_sdr := now }

/-- `self.last[side] = new_val`. -/
def Tracker.setLastVal (tr : Tracker) (side : Side) (v : Int) : Tracker :=
  match side with
  | Side.wf => { tr with last_wf := some v }
  | Side.sdr => { tr with last_sdr := some v }

/-- `Tracker.update(side, new_val)` (src/sync.py lines 133-138), with the
`time.time()` call made explicit as the argument `now`: if the slot holds no
previous value or the delta reaches the threshold, stamp the side's
last-change instant; always overwrite the stored value. -/
def Tracker.update (tr : Tracker) (side : Side) (new_val : Int) (now : ℚ) : Tracker :=
  let old := tr.lastVal side
  let changed : Bool :=
    match old with
    | none => true
    | some o => decide (tr.th ≤ |new_val - o|)
  let tr1 := if changed then tr.setLct side now else tr
  tr1.setLastVal side new_val

/-- `Tracker.last_changed_side()` (src/sync.py lines 140-145): `none` when
both last-change instants are still the `0.0` "never" marker, otherwise `wf`
exactly when `wf_t >= sdr_t`. -/
def Tracker.last_changed_side (tr : Tracker) : Option Side :=
  if tr.lct_wf = 0 ∧ tr.lct_sdr = 0 then none
  else if tr.lct_wf ≥ tr.lct_sdr then some Side.wf else some Side.sdr

/-- The correction write issued by one polling tick: `rigctl_set_freq(sdr, _,
f)` is `setSdr f`, `rigctl_set_freq(wf, _, f)` is `setWf f`, and `noAction`
when no set-command is sent. -/
inductive SyncAction where
  | setSdr : Int → SyncAction
  | setWf : Int → SyncAction
  | noAction : SyncAction
deriving DecidableEq, Repr

/-- One `POLLING` tick body (src/sync.py lines 185-210) given the readings
obtained this tick (`none` models a failed parse, treated as an absent
reading) and the two `time.time()` instants of the tracker updates. Returns
the updated tracker and the correction write, if any. `thr` is the
`CHANGE_THRESHOLD_HZ` configuration value. -/
def pollTick (thr : Int) (tr : Tracker) (wf_freq sdr_freq : Option Int)
    (t_wf t_sdr : ℚ) : Tracker × SyncAction :=
  let tr1 := match wf_freq with
    | some v => tr.update Side.wf v t_wf
    | none => tr
  let tr2 := match sdr_freq with
    | some v => tr1.update Side.sdr v t_sdr
    | none => tr1
  match wf_freq, sdr_freq with
  | some w, some s =>
    if thr ≤ |w - s| then
      match tr2.last_changed_side with
      | some Side.wf => (tr2, SyncAction.setSdr w)
      | some Side.sdr => (tr2, SyncAction.setWf s)
      | none => (tr2, SyncAction.setSdr w)
    else (tr2, SyncAction.noAction)
  | _, _ => (tr2, SyncAction.noAction)

/-- How long the loop sleeps after a tick: `time.sleep(poll_sec)` versus the
`time.sleep(RECONNECT_WAIT)` backoff. -/
inductive Sleep where
  | pollInterval : Sleep
  | reconnectWait : Sleep
deriving DecidableEq, Repr

/-- Connection handles and tracker state carried across loop iterations.
`wfConn` / `sdrConn` record whether the corresponding socket handle is live
(`wf is not None` / `sdr is not None` in the Python loop). -/
structure LoopState where
  wfConn : Bool
  sdrConn : Bool
  tr : Tracker
deriving DecidableEq, Repr

/-- What happens inside the `try` body of one polling iteration: either both
reads complete (with the readings and update instants), or an I/O failure
(`socket.timeout`, `ConnectionResetError`, `BrokenPipeError`) is raised, or
some other unexpected exception is raised. -/
inductive TickEvent where
  | readings : Option Int → Option Int → ℚ → ℚ → TickEvent
  | ioError : TickEvent
  | unexpectedError : TickEvent
deriving Repr

/-- One full polling iteration of `main` (src/sync.py lines 184-223),
dispatching on the exception outcome of the tick body: a completed tick runs
`pollTick` and sleeps the poll interval; an I/O error closes and discards
both handles and sleeps the reconnect backoff; any other exception leaves
the handles alone and sleeps the poll interval. No branch terminates the
process. -/
def pollStep (thr : Int) (st : LoopState) (ev : TickEvent) :
    LoopState × SyncAction × Sleep :=
  match ev with
  | TickEvent.readings wfF sdrF t1 t2 =>
    let res := pollTick thr st.tr wfF sdrF t1 t2
    ({ st with tr := res.1 }, res.2, Sleep.pollInterval)
  | TickEvent.ioError =>
    ({ st with wfConn := false, sdrConn := false }, SyncAction.noAction, Sleep.reconnectWait)
  | TickEvent.unexpectedError =>
    (st, SyncAction.noAction, Sleep.pollInterval)

/-! ## Protocol codec: reply parsing and acknowledgment detection -/

/-- Python default whitespace, as recognised by `str.strip()` and
`str.split()` with no argument (restricted to ASCII): space, tab, newline,
carriage return, vertical tab, form feed. -/
def pyIsSpace (c : Char) : Bool :=
  c == ' ' || c == '\t' || c == '\n' || c == '\r' || c == '\x0b' || c == '\x0c'

/-- `text.strip()`: drop leading and trailing whitespace. -/
def pyStrip (cs : List Char) : List Char :=
  ((cs.dropWhile pyIsSpace).reverse.dropWhile pyIsSpace).reverse

/-- `text.split()` with no separator: split on whitespace runs, discarding
empty tokens. -/
def pySplit (cs : List Char) : List (List Char) :=
  (cs.splitOnP pyIsSpace).filter (fun t => !t.isEmpty)

/-- Numeric value of a digit string, most significant digit first. -/
def digitsToNat (cs : List Char) : Nat :=
  cs.foldl (fun a c => 10 * a + (c.toNat - '0'.toNat)) 0

/-- Python `int(tok)` on a token containing only digits, `.` and `-`: an
optional leading minus sign followed by one or more digits; anything else
raises `ValueError`, modelled as `none`. -/
def pyInt (cs : List Char) : Option Int :=
  match cs with
  | '-' :: rest =>
    if !rest.isEmpty && rest.all Char.isDigit then some (-(digitsToNat rest : Int))
    else none
  | _ =>
    if !cs.isEmpty && cs.all Char.isDigit then some (digitsToNat cs : Int)
    else none

/-- Python `float(tok)` on a token containing only digits, `.` and `-`: an
optional leading minus sign followed by a digit run optionally carrying one
embedded decimal point (with at least one digit overall). The result is the
exact decimal value, represented as a mantissa/scale pair `(m, k)` denoting
`m / 10^k`; IEEE-754 double rounding of the literal is not modelled. -/
def pyFloat (cs : List Char) : Option (Int × Nat) :=
  let sign : Bool := match cs with
    | '-' :: _ => true
    | _ => false
  let rest : List Char := match cs with
    | '-' :: r => r
    | _ => cs
  match rest.splitOn '.' with
  | [whole] =>
    if !whole.isEmpty && whole.all Char.isDigit then
      some (if sign then -(digitsToNat whole : Int) else (digitsToNat whole : Int), 0)
    else none
  | [ip, fp] =>
    if (!ip.isEmpty || !fp.isEmpty) && ip.all Char.isDigit && fp.all Char.isDigit then
      let m : Int := (digitsToNat ip : Int) * (10 : Int) ^ fp.length + (digitsToNat fp : Int)
      some (if sign then -m else m, fp.length)
    else none
  | _ => none

/-- One-argument Python `round` applied to the exact decimal value `m / 10^k`:
round to the nearest integer, halves to the even neighbour, computed with
floor division (`f + r / d` with `0 ≤ r < d`). -/
def pyRound (m : Int) (k : Nat) : Int :=
  let d : Int := (10 : Int) ^ k
  let f : Int := Int.fdiv m d
  let r : Int := Int.fmod m d
  if 2 * r = d then (if 2 ∣ f then f else f + 1)
  else if 2 * r < d then f else f + 1

/-- The per-token cleanup of `parse_freq_from_text`: keep a character when
`ch.isdigit() or ch in ".-"`. -/
def keepChar (c : Char) : Bool := c.isDigit || c == '.' || c == '-'

/-- The body of the token loop in `parse_freq_from_text` (src/sync.py lines
93-104): clean the token, skip it when nothing is left, otherwise try `int`,
then `float` followed by `round`; `none` means the loop continues. -/
def tokenToFreq (token : List Char) : Option Int :=
  let tok := token.filter keepChar
  if tok.isEmpty then none
  else
    match pyInt tok with
    | some n => some n
    | none => (pyFloat tok).map (fun p => pyRound p.1 p.2)

/-- The token list scanned by `parse_freq_from_text`:
`text.strip().replace(":", " ").split()`. -/
def pyTokens (cs : List Char) : List (List Char) :=
  pySplit ((pyStrip cs).map (fun c => if c == ':' then ' ' else c))

/-- The `for token in ...` loop of `parse_freq_from_text`: the first token
that yields a number wins; `None` when the loop falls through. -/
def parseLoop : List (List Char) → Option Int
  | [] => none
  | tok :: rest =>
    match tokenToFreq tok with
    | some n => some n
    | none => parseLoop rest

/-- `parse_freq_from_text(text)` (src/sync.py lines 90-105). -/
def parse_freq_from_text (s : String) : Option Int :=
  parseLoop (pyTokens s.data)

/-- Python `str.isdigit()` (restricted to ASCII): nonempty and every
character a decimal digit. -/
def pyIsDigitStr (cs : List Char) : Bool := !cs.isEmpty && cs.all Char.isDigit

/-- The acknowledgment test of `rigctl_set_freq` (src/sync.py line 120):
`("RPRT 0" in reply) or reply.strip().isdigit()`. -/
def is_set_acknowledged (reply : String) : Bool :=
  decide ("RPRT 0".data <:+: reply.data) || pyIsDigitStr (pyStrip reply.data)

/-! ## Connection manager: the single-read receive and its decode

`recv_text` does `sock.recv(max_bytes)` once and then
`data.decode(errors="ignore")`. The decoder below is UTF-8 (Python's default
codec) parameterised by the recovery action for ill-formed input: CPython
skips each maximal ill-formed subpart and, under `ignore`, emits nothing for
it (under `replace`, one U+FFFD per subpart). -/

/-- A UTF-8 continuation byte, `0x80..0xBF`. -/
def isCont (b : Nat) : Bool := decide (0x80 ≤ b ∧ b ≤ 0xBF)

/-- Allowed second byte of a three-byte sequence given its lead byte: the
`E0` and `ED` rows exclude overlong encodings and surrogates. -/
def validSecond3 (b c : Nat) : Bool :=
  if b = 0xE0 then decide (0xA0 ≤ c ∧ c ≤ 0xBF)
  else if b = 0xED then decide (0x80 ≤ c ∧ c ≤ 0x9F)
  else decide (0x80 ≤ c ∧ c ≤ 0xBF)

/-- Allowed second byte of a four-byte sequence given its lead byte: the
`F0` and `F4` rows exclude overlong encodings and values above U+10FFFF. -/
def validSecond4 (b c : Nat) : Bool :=
  if b = 0xF0 then decide (0x90 ≤ c ∧ c ≤ 0xBF)
  else if b = 0xF4 then decide (0x80 ≤ c ∧ c ≤ 0x8F)
  else decide (0x80 ≤ c ∧ c ≤ 0xBF)

/-- UTF-8 decoding of a byte sequence with a recovery action for ill-formed
input: `repl` is emitted once per maximal ill-formed subpart, whose bytes
are skipped. `repl = []` is CPython's `ignore` error handler, `repl =
[replacementChar]` its `replace` handler. Well-formed sequences decode to
their scalar values. -/
def utf8DecodeWith (repl : List Char) : List Nat → List Char
  | [] => []
  | b :: bs =>
    if b < 0x80 then Char.ofNat b :: utf8DecodeWith repl bs
    else if 0xC2 ≤ b ∧ b ≤ 0xDF then
      match hbs : bs with
      | [] => repl
      | c1 :: bs1 =>
        if isCont c1 then
          Char.ofNat ((b - 0xC0) * 0x40 + (c1 - 0x80)) :: utf8DecodeWith repl bs1
        else repl ++ utf8DecodeWith repl bs
    else if 0xE0 ≤ b ∧ b ≤ 0xEF then
      match hbs : bs with
      | [] => repl
      | c1 :: bs1 =>
        if validSecond3 b c1 then
          match hbs1 : bs1 with
          | [] => repl
          | c2 :: bs2 =>
            if isCont c2 then
              Char.ofNat ((b - 0xE0) * 0x1000 + (c1 - 0x80) * 0x40 + (c2 - 0x80)) ::
                utf8DecodeWith repl bs2
            else repl ++ utf8DecodeWith repl bs1
        else repl ++ utf8DecodeWith repl bs
    else if 0xF0 ≤ b ∧ b ≤ 0xF4 then
      match hbs : bs with
      | [] => repl
      | c1 :: bs1 =>
        if validSecond4 b c1 then
          match hbs1 : bs1 with
          | [] => repl
          | c2 :: bs2 =>
            if isCont c2 then
              match hbs2 : bs2 with
              | [] => repl
              | c3 :: bs3 =>
                if isCont c3 then
                  Char.ofNat ((b - 0xF0) * 0x40000 + (c1 - 0x80) * 0x1000 +
                      (c2 - 0x80) * 0x40 + (c3 - 0x80)) :: utf8DecodeWith repl bs3
                else repl ++ utf8DecodeWith repl bs2
            else repl ++ utf8DecodeWith repl bs1
        else repl ++ utf8DecodeWith repl bs
    else repl ++ utf8DecodeWith repl bs
termination_by l => l.length
decreasing_by all_goals subst_eqs <;> simp <;> omega

/-- The UTF-8 encoding of one Unicode scalar value, 1-4 bytes. -/
def utf8EncodeChar (c : Char) : List Nat :=
  let n := c.toNat
  if n < 0x80 then [n]
  else if n < 0x800 then [0xC0 + n / 0x40, 0x80 + n % 0x40]
  else if n < 0x10000 then
    [0xE0 + n / 0x1000, 0x80 + n / 0x40 % 0x40, 0x80 + n % 0x40]
  else
    [0xF0 + n / 0x40000, 0x80 + n / 0x1000 % 0x40, 0x80 + n / 0x40 % 0x40, 0x80 + n % 0x40]

/-- UTF-8 encoding of a character sequence. -/
def utf8Encode (cs : List Char) : List Nat := cs.flatMap utf8EncodeChar

/-- `recv_text(sock, peer, max_bytes)` (src/sync.py lines 82-86): a single
`sock.recv(max_bytes)` — modelled as taking at most `max_bytes` bytes off
the head of the incoming stream — followed by `data.decode(errors="ignore")`,
which drops each ill-formed byte subpart instead of raising. -/
def recv_text (incoming : List Nat) (max_bytes : Nat) : List Char :=
  utf8DecodeWith [] (incoming.take max_bytes)

/-- The U+FFFD replacement character emitted by the `replace` error
handler. -/
def replacementChar : Char := Char.ofNat 0xFFFD

/-- Modelled from the spec: "decodes it as text, tolerating undecodable
bytes by substitution rather than failing" — substitution is the `replace`
error handler, one U+FFFD per maximal ill-formed subpart. The code instead
passes `errors="ignore"`; this definition exists only to compare the spec's
wording with the code's behaviour. -/
def decodeBySubstitution (bs : List Nat) : List Char :=
  utf8DecodeWith [replacementChar] bs

/-! ## Claims about the tracker and the polling decision -/

/-- C1 (counterexample): with a fresh tracker, readings diverging by 100 Hz
(threshold 50) and the secondary's update instant strictly later than the
primary's (`time.time()` advanced between the two `Tracker.update` calls),
the correction pushes the SECONDARY's frequency to the primary — not, as the
claim states, the primary's frequency to the secondary. The first samples
stamp both last-change instants before `last_changed_side` is consulted, so
the `None` tie branch is never reached and `wf_t >= sdr_t` is false. -/
theorem c1_tiebreak_counterexample :
    (pollTick 50 (Tracker.init 50) (some 14250000) (some 14250100) 1 2).2
      = SyncAction.setWf 14250100 ∧
    SyncAction.setWf 14250100 ≠ SyncAction.setSdr 14250000 := by
  decide

/-- C1 (amended): with a fresh tracker (no recorded change on either side,
both last-change instants the zero "never" value), positive update instants
`t1` (primary) and `t2` (secondary), and readings diverging by at least the
threshold, the correction source is the primary exactly when `t2 ≤ t1`
(i.e. when the two `time.time()` readings tie, since the primary is updated
first); when the secondary's update instant is strictly later, the
secondary's frequency is pushed to the primary instead. -/
theorem c1_tiebreak_amended (thr w s : Int) (t1 t2 : ℚ)
    (h1 : 0 < t1) (_h2 : 0 < t2) (hd : thr ≤ |w - s|) :
    (pollTick thr (Tracker.init thr) (some w) (some s) t1 t2).2
      = if t2 ≤ t1 then SyncAction.setSdr w else SyncAction.setWf s := by
  have hne : ¬ (t1 = 0 ∧ t2 = 0) := by
    rintro ⟨rfl, -⟩; exact lt_irrefl 0 h1
  by_cases h12 : t2 ≤ t1 <;>
    simp [pollTick, Tracker.init, Tracker.update, Tracker.lastVal, Tracker.setLct,
      Tracker.setLastVal, Tracker.last_changed_side, hd, hne, ge_iff_le, h12]

/-- C1 (amended, witness): equal update instants give the primary as source. -/
theorem c1_tiebreak_amended_witness :
    (pollTick 50 (Tracker.init 50) (some 14250000) (some 14250100) 1 1).2
      = SyncAction.setSdr 14250000 := by
  have h := c1_tiebreak_amended 50 14250000 14250100 1 1 (by decide) (by decide) (by decide)
  simpa using h

/-- C2: when both readings are obtained, they diverge by at least the
threshold, and the tracker (after this tick's updates) knows a
most-recently-changed side, the correction write targets the other side and
carries the changed side's reading: a `wf` source sends the wfview frequency
to rigctl, an `sdr` source sends the rigctl frequency to wfview. -/
theorem c2_correction_targets_other_side (thr : Int) (tr : Tracker) (w s : Int)
    (t1 t2 : ℚ) (hd : thr ≤ |w - s|) :
    (((tr.update Side.wf w t1).update Side.sdr s t2).last_changed_side = some Side.wf →
        (pollTick thr tr (some w) (some s) t1 t2).2 = SyncAction.setSdr w) ∧
    (((tr.update Side.wf w t1).update Side.sdr s t2).last_changed_side = some Side.sdr →
        (pollTick thr tr (some w) (some s) t1 t2).2 = SyncAction.setWf s) := by
  constructor <;> intro h <;> simp only [pollTick, if_pos hd, h]

/-- C2 (witness): primary changed most recently (instant 2 versus 1), delta
100 ≥ 50, so the primary's 14250100 Hz is pushed to the secondary. -/
theorem c2_correction_witness :
    (pollTick 50 (Tracker.init 50) (some 14250100) (some 14250000) 2 1).2
      = SyncAction.setSdr 14250100 :=
  (c2_correction_targets_other_side 50 (Tracker.init 50) 14250100 14250000 2 1
    (by decide)).1 (by decide)

/-- C3: when both readings are obtained and they differ by less than the
threshold, the tick issues no correction write at all. -/
theorem c3_below_threshold_no_write (thr : Int) (tr : Tracker) (w s : Int)
    (t1 t2 : ℚ) (hd : |w - s| < thr) :
    (pollTick thr tr (some w) (some s) t1 t2).2 = SyncAction.noAction := by
  simp [pollTick, not_le.mpr hd]

/-- C3 (witness): identical readings are in sync, no write. -/
theorem c3_below_threshold_witness :
    (pollTick 50 (Tracker.init 50) (some 14250000) (some 14250000) 1 2).2
      = SyncAction.noAction :=
  c3_below_threshold_no_write 50 (Tracker.init 50) 14250000 14250000 1 2 (by decide)

/-- C4: a side's first observed sample (slot previously empty) always stamps
that side's last-change instant with the current time; and a tick in which
only that side's reading was obtained (the opposite side's reading absent)
issues no correction write, so the first sample alone never triggers a
correction pass. -/
theorem c4_first_sample_initializes (tr : Tracker) (side : Side) (v : Int) (t : ℚ)
    (thr : Int) (t1 t2 : ℚ) (h : tr.lastVal side = none) :
    (tr.update side v t).lct side = t ∧
    (match side with
      | Side.wf => (pollTick thr tr (some v) none t1 t2).2
      | Side.sdr => (pollTick thr tr none (some v) t1 t2).2) = SyncAction.noAction := by
  cases side <;> simp only [Tracker.lastVal] at h <;>
    simp [Tracker.update, Tracker.lastVal, Tracker.lct, Tracker.setLct,
      Tracker.setLastVal, pollTick, h]

/-- C4 (witness): the fresh tracker's primary slot is empty; the first
sample stamps instant 5 and the one-sided tick issues no write. -/
theorem c4_first_sample_witness :
    ((Tracker.init 50).update Side.wf 14250000 5).lct Side.wf = 5 ∧
    (pollTick 50 (Tracker.init 50) (some 14250000) none 5 6).2 = SyncAction.noAction := by
  have h := c4_first_sample_initializes (Tracker.init 50) Side.wf 14250000 5 50 5 6 (by decide)
  exact ⟨h.1, h.2⟩

/-- C5: `record(side, value)` semantics — the stored value is always
overwritten with the new value, and the side's last-change instant becomes
the current time exactly when the slot was empty or the delta reaches the
threshold (a delta exactly equal to the threshold counts, `>=` not `>`),
otherwise it is left unchanged; illustrated at the exact boundary by a
50 Hz step against a 50 Hz threshold. -/
theorem c5_record_semantics (tr : Tracker) (side : Side) (v : Int) (t : ℚ) :
    (tr.update side v t).lastVal side = some v ∧
    (tr.update side v t).lct side =
      (match tr.lastVal side with
        | none => t
        | some o => if tr.th ≤ |v - o| then t else tr.lct side) ∧
    (((Tracker.init 50).update Side.wf 0 7).update Side.wf 50 9).lct Side.wf = 9 := by
  refine ⟨?_, ?_, by decide⟩ <;>
    cases side <;>
      cases h : tr.lastVal Side.wf <;> cases h' : tr.lastVal Side.sdr <;>
        simp_all [Tracker.update, Tracker.lastVal, Tracker.lct, Tracker.setLct,
          Tracker.setLastVal] <;>
        split <;> simp_all

/-- C6: `parse_freq_from_text` parses `"14250000\n"` to `14250000` and
`"freq: 7074000.0 kHz-ish"` to `7074000` (the decimal token rounds to the
nearest integer), and in general returns the first token of
`text.strip().replace(":", " ").split()` that yields a number under the
clean-then-`int`-then-`float`/`round` token rule — `none` exactly when no
token yields one (the semantics of `List.findSome?`). -/
theorem c6_parse_frequency :
    parse_freq_from_text "14250000\n" = some 14250000 ∧
    parse_freq_from_text "freq: 7074000.0 kHz-ish" = some 7074000 ∧
    ∀ s : String, parse_freq_from_text s = (pyTokens s.data).findSome? tokenToFreq := by
  refine ⟨by decide, by decide, fun s => ?_⟩
  show parseLoop (pyTokens s.data) = _
  induction pyTokens s.data with
  | nil => rfl
  | cons tok rest ih =>
    simp only [parseLoop, List.findSome?]
    cases tokenToFreq tok <;> simp_all

/-- C7: the set-command acknowledgment test is true exactly when the reply
contains the substring `RPRT 0` or its whitespace-stripped form is purely
numeric; in particular `"RPRT 0\n"` and `"14250000\n"` are acknowledged and
`"RPRT -1\n"` is not. -/
theorem c7_set_acknowledged :
    is_set_acknowledged "RPRT 0\n" = true ∧
    is_set_acknowledged "14250000\n" = true ∧
    is_set_acknowledged "RPRT -1\n" = false ∧
    ∀ reply : String, is_set_acknowledged reply = true ↔
      ("RPRT 0".data <:+: reply.data ∨ pyIsDigitStr (pyStrip reply.data) = true) := by
  refine ⟨by decide, by decide, by decide, fun reply => ?_⟩
  simp [is_set_acknowledged]

/-- C10: `parse_freq_from_text` can return a negative integer: on the
endpoint error reply `"RPRT -1\n"` it returns `-1` rather than no value,
even though a frequency is supposed to be a non-negative number of Hz. -/
theorem c10_negative_parse :
    parse_freq_from_text "RPRT -1\n" = some (-1) ∧ (-1 : Int) < 0 := by
  decide

/-- Validity of a `Char`'s scalar value, restated over `Nat`: below the
surrogate range or above it and below `0x110000`. -/
theorem char_toNat_valid (c : Char) :
    c.toNat < 0xD800 ∨ (0xE000 ≤ c.toNat ∧ c.toNat < 0x110000) := by
  rcases c.valid with h | ⟨h1, h2⟩
  · exact Or.inl (by exact_mod_cast h)
  · exact Or.inr ⟨by exact_mod_cast h1, by exact_mod_cast h2⟩

/-- Decoding the UTF-8 encoding of one character prepended to any byte tail
yields that character and continues with the tail, for either recovery
action. -/
theorem utf8DecodeWith_encodeChar (repl : List Char) (c : Char) (rest : List Nat) :
    utf8DecodeWith repl (utf8EncodeChar c ++ rest) = c :: utf8DecodeWith repl rest := by
  have hval := char_toNat_valid c
  have hofn := Char.ofNat_toNat c
  simp only [utf8EncodeChar]
  generalize hg : c.toNat = n at hval hofn
  by_cases h1 : n < 0x80
  · rw [if_pos h1, List.singleton_append]
    conv_lhs => rw [utf8DecodeWith.eq_def]
    simp [h1, hofn]
  · by_cases h2 : n < 0x800
    · have g1 : ¬ (0xC0 + n / 0x40 < 0x80) := by omega
      have g2 : 0xC2 ≤ 0xC0 + n / 0x40 ∧ 0xC0 + n / 0x40 ≤ 0xDF := by omega
      have g3 : isCont (0x80 + n % 0x40) = true := by
        simp only [isCont, decide_eq_true_eq]; omega
      rw [if_neg h1, if_pos h2, List.cons_append, List.singleton_append]
      conv_lhs => rw [utf8DecodeWith.eq_def]
      simp [g1, g2, g3]
      rw [← hofn]
      congr 1
      omega
    · by_cases h3 : n < 0x10000
      · have g1 : ¬ (0xE0 + n / 0x1000 < 0x80) := by omega
        have g2 : ¬ (0xC2 ≤ 0xE0 + n / 0x1000 ∧ 0xE0 + n / 0x1000 ≤ 0xDF) := by omega
        have g3 : 0xE0 ≤ 0xE0 + n / 0x1000 ∧ 0xE0 + n / 0x1000 ≤ 0xEF := by omega
        have g4 : validSecond3 (0xE0 + n / 0x1000) (0x80 + n / 0x40 % 0x40) = true := by
          simp only [validSecond3]
          split_ifs <;> simp only [decide_eq_true_eq] <;> omega
        have g5 : isCont (0x80 + n % 0x40) = true := by
          simp only [isCont, decide_eq_true_eq]; omega
        rw [if_neg h1, if_neg h2, if_pos h3, List.cons_append, List.cons_append,
          List.singleton_append]
        conv_lhs => rw [utf8DecodeWith.eq_def]
        simp [g1, g2, g3, g4, g5]
        rw [← hofn]
        congr 1
        omega
      · have g1 : ¬ (0xF0 + n / 0x40000 < 0x80) := by omega
        have g2 : ¬ (0xC2 ≤ 0xF0 + n / 0x40000 ∧ 0xF0 + n / 0x40000 ≤ 0xDF) := by omega
        have g3 : ¬ (0xE0 ≤ 0xF0 + n / 0x40000 ∧ 0xF0 + n / 0x40000 ≤ 0xEF) := by omega
        have g4 : 0xF0 ≤ 0xF0 + n / 0x40000 ∧ 0xF0 + n / 0x40000 ≤ 0xF4 := by omega
        have g5 : validSecond4 (0xF0 + n / 0x40000) (0x80 + n / 0x1000 % 0x40) = true := by
          simp only [validSecond4]
          split_ifs <;> simp only [decide_eq_true_eq] <;> omega
        have g6 : isCont (0x80 + n / 0x40 % 0x40) = true := by
          simp only [isCont, decide_eq_true_eq]; omega
        have g7 : isCont (0x80 + n % 0x40) = true := by
          simp only [isCont, decide_eq_true_eq]; omega
        rw [if_neg h1, if_neg h2, if_neg h3, List.cons_append, List.cons_append,
          List.cons_append, List.singleton_append]
        conv_lhs => rw [utf8DecodeWith.eq_def]
        simp [g1, g2, g3, g4, g5, g6, g7]
        rw [← hofn]
        congr 1
        omega

/-- Decoding is a left inverse of encoding: well-formed UTF-8 input decodes
losslessly under either recovery action. -/
theorem utf8DecodeWith_encode (repl : List Char) (cs : List Char) :
    utf8DecodeWith repl (utf8Encode cs) = cs := by
  induction cs with
  | nil =>
    rw [show utf8Encode [] = [] from rfl, utf8DecodeWith.eq_def]
  | cons c rest ih =>
    have he : utf8Encode (c :: rest) = utf8EncodeChar c ++ utf8Encode rest := by
      simp [utf8Encode]
    rw [he, utf8DecodeWith_encodeChar, ih]

/-- C9 (counterexample): the receive decode does NOT tolerate undecodable
bytes by substitution. On the two-byte input `FF 61` (an ill-formed byte
followed by `'a'`), `recv_text` drops the bad byte and returns `"a"`,
whereas substitution (the `replace` handler the spec describes) would
return U+FFFD followed by `'a'`. -/
theorem c9_substitution_counterexample :
    recv_text [0xFF, 0x61] 1024 = ['a'] ∧
    decodeBySubstitution [0xFF, 0x61] = [replacementChar, 'a'] ∧
    recv_text [0xFF, 0x61] 1024 ≠ decodeBySubstitution [0xFF, 0x61] := by
  have h1 : recv_text [0xFF, 0x61] 1024 = ['a'] := by
    have ht : ([0xFF, 0x61] : List Nat).take 1024 = [0xFF, 0x61] := by decide
    rw [recv_text, ht]
    simp [utf8DecodeWith]
  have h2 : decodeBySubstitution [0xFF, 0x61] = [replacementChar, 'a'] := by
    rw [decodeBySubstitution]
    simp [utf8DecodeWith]
  refine ⟨h1, h2, ?_⟩
  rw [h1, h2]
  decide

/-- C9 (amended): `recv_text` performs a single read of up to `max_bytes`
bytes and decodes it as UTF-8 text without ever failing: well-formed input
decodes exactly (decode is a left inverse of encode), and undecodable bytes
are tolerated by DELETION (the `ignore` error handler skips them), not by
substitution. -/
theorem c9_receive_semantics (incoming : List Nat) (max_bytes : Nat) :
    recv_text incoming max_bytes = utf8DecodeWith [] (incoming.take max_bytes) ∧
    (incoming.take max_bytes).length ≤ max_bytes ∧
    (∀ cs : List Char, recv_text (utf8Encode cs) (utf8Encode cs).length = cs) :=
  ⟨rfl, incoming.length_take_le max_bytes,
    fun cs => by rw [recv_text, List.take_of_length_le le_rfl, utf8DecodeWith_encode]⟩

/-- C8: inside one polling iteration, an I/O failure (timeout, reset, broken
pipe) discards BOTH connection handles — whatever their prior state — and
sleeps the reconnect backoff, while any other unexpected failure leaves both
handles and the tracker untouched and sleeps one poll interval; neither
branch terminates the loop (both return a successor state). -/
theorem c8_failure_semantics (thr : Int) (st : LoopState) :
    pollStep thr st TickEvent.ioError
      = ({ st with wfConn := false, sdrConn := false },
          SyncAction.noAction, Sleep.reconnectWait) ∧
    pollStep thr st TickEvent.unexpectedError
      = (st, SyncAction.noAction, Sleep.pollInterval) :=
  ⟨rfl, rfl⟩

end SdrSync
